import Mathlib

/-!
Verification development for the SSI Hyperledger identity engine.

The development embeds, as Lean definitions, the Poseidon-based Merkle
tree utility (merkle-utils) and the identity chaincode operations of the
repository, and proves the specified properties about them.

Conventions of the embedding:
- Field elements are arbitrary-precision non-negative integers (Nat).
  The JavaScript code round-trips every value through
  BigInt(x).toString(); on a non-negative integer this round trip is the
  identity, so layer values are embedded directly as Nat.
- The Poseidon permutation is out of scope of the source (it comes from
  circomlibjs) and is treated as an arbitrary function: definitions and
  theorems are parameterized over H1 : Nat -> Nat (unary hash) and
  H2 : Nat -> Nat -> Nat (binary hash).
- Fallible code returns Except CCError; each distinct throw site of the
  source is mapped to a distinct error value, named after the error
  taxonomy of the specification.
-/

/-- Error taxonomy: one constructor per kind of failure of the engine,
each JavaScript throw site is mapped to one of these values. -/
inductive CCError where
  | validation (msg : String)
  | malformedPayload
  | proofInvalid
  | signalMismatch (msg : String)
  | alreadyExists (userID : String)
  | notFound (userID : String)
  | revokedCredential (userID : String)
  | rootMismatch
  | emptyInput
  | indexOutOfRange (i : Nat)
  | malformedProof
  | invalidTree
  | missingField (name : String)
  | encodingError
deriving DecidableEq

/-! ## String and number normalization helpers (identity.js / merkle-utils.js) -/

/-- Value of a decimal digit character, none for other characters. -/
def decDigitVal (c : Char) : Option Nat :=
  if 48 ≤ c.toNat ∧ c.toNat ≤ 57 then some (c.toNat - 48) else none

/-- Value of a hexadecimal digit character, none for other characters. -/
def hexDigitVal (c : Char) : Option Nat :=
  if 48 ≤ c.toNat ∧ c.toNat ≤ 57 then some (c.toNat - 48)
  else if 97 ≤ c.toNat ∧ c.toNat ≤ 102 then some (c.toNat - 87)
  else if 65 ≤ c.toNat ∧ c.toNat ≤ 70 then some (c.toNat - 55)
  else none

/-- Fold a digit list in base `b`, failing on the first non-digit. -/
def parseDigitsAux (f : Char → Option Nat) (b : Nat) (acc : Nat) : List Char → Option Nat
  | [] => some acc
  | c :: cs =>
    match f c with
    | some d => parseDigitsAux f b (b * acc + d) cs
    | none => none

/-- Model of the JavaScript BigInt(string) conversion for the string
forms the engine encounters: plain decimal strings, strings starting
with 0x or 0X (hexadecimal), a leading minus on a decimal string, and
the empty string (which BigInt maps to 0).  Returns none where BigInt
throws a SyntaxError. -/
def jsBigIntOfString (s : String) : Option Int :=
  match s.data with
  | [] => some 0
  | '-' :: rest =>
    if rest.isEmpty then none
    else (parseDigitsAux decDigitVal 10 0 rest).map (fun n => -(n : Int))
  | '0' :: 'x' :: rest =>
    if rest.isEmpty then none
    else (parseDigitsAux hexDigitVal 16 0 rest).map (fun n => (n : Int))
  | '0' :: 'X' :: rest =>
    if rest.isEmpty then none
    else (parseDigitsAux hexDigitVal 16 0 rest).map (fun n => (n : Int))
  | l => (parseDigitsAux decDigitVal 10 0 l).map (fun n => (n : Int))

/-- Model of identity.js toNumber on string signals: Number(BigInt(s)).
none models NaN.  (The Number fallback for strings BigInt rejects only
produces a non-NaN value on floating-point literals, which never occur
among the decimal-string field elements the engine consumes; the
conversion is exact for the magnitudes exercised here.) -/
def toNumber (s : String) : Option Int :=
  jsBigIntOfString s

/-- ASCII lower-casing of one character (String.prototype.toLowerCase
restricted to the ASCII signal strings the engine consumes). -/
def lowerAscii (c : Char) : Char :=
  if 65 ≤ c.toNat ∧ c.toNat ≤ 90 then Char.ofNat (c.toNat + 32) else c

/-- ASCII lower-casing of a string. -/
def jsToLower (s : String) : String :=
  ⟨s.data.map lowerAscii⟩

/-- Model of identity.js toBooleanSignal on string signals: true exactly
for "1" and case-insensitive "true". -/
def toBooleanSignal (s : String) : Bool :=
  (s == "1") || (jsToLower s == "true")

/-- Leading decimal digits of a character list. -/
def leadingDigits : List Char → List Nat
  | [] => []
  | c :: cs =>
    match decDigitVal c with
    | some d => d :: leadingDigits cs
    | none => []

/-- Model of JavaScript parseInt(s, 10): optional sign followed by the
longest run of leading decimal digits; none models NaN. -/
def parseIntJS (s : String) : Option Int :=
  match s.data with
  | '-' :: rest =>
    let ds := leadingDigits rest
    if ds.isEmpty then none
    else some (-(ds.foldl (fun a d => 10 * a + d) 0 : Int))
  | '+' :: rest =>
    let ds := leadingDigits rest
    if ds.isEmpty then none
    else some ((ds.foldl (fun a d => 10 * a + d) 0 : Int))
  | l =>
    let ds := leadingDigits l
    if ds.isEmpty then none
    else some ((ds.foldl (fun a d => 10 * a + d) 0 : Int))

/-! ## Field encoder (merkle-utils.js valueToFieldElement) -/

/-- A JavaScript value reaching valueToFieldElement: a non-negative
integer (number or bigint), or a string given by its UTF-8 byte
sequence (the TextEncoder output the source computes). -/
inductive JSVal where
  | num (n : Nat)
  | str (bytes : List Nat)
deriving DecidableEq

/-- The test by the regular expression of one-or-more decimal digits,
applied to a string given by its UTF-8 bytes (decimal digits are
one-byte UTF-8 code units, so the byte-level test coincides with the
character-level one). -/
def numericBytes (bytes : List Nat) : Bool :=
  !bytes.isEmpty && bytes.all (fun b => 48 ≤ b && b ≤ 57)

/-- Decimal value of an all-digit byte string. -/
def decBytesValue (bytes : List Nat) : Nat :=
  bytes.foldl (fun a b => 10 * a + (b - 48)) 0

/-- merkle-utils.js valueToFieldElement: numbers and bigints are used
directly; numeric strings are parsed as decimal; other strings are
truncated to their first 31 bytes and read as one big-endian integer. -/
def valueToFieldElement : JSVal → Nat
  | .num n => n
  | .str bytes =>
    if numericBytes bytes then decBytesValue bytes
    else (bytes.take 31).foldl (fun r b => r * 256 + b) 0

/-- merkle-utils.js poseidonHash: unary Poseidon of the encoded value. -/
def poseidonHash (H1 : Nat → Nat) (v : JSVal) : Nat :=
  H1 (valueToFieldElement v)

/-- merkle-utils.js poseidonHash2: binary Poseidon of the encoded values. -/
def poseidonHash2 (H2 : Nat → Nat → Nat) (l r : JSVal) : Nat :=
  H2 (valueToFieldElement l) (valueToFieldElement r)

/-- merkle-utils.js computeLeafHash: hash the value with the salt when
the salt is non-zero, else hash the value alone. -/
def computeLeafHash (H1 : Nat → Nat) (H2 : Nat → Nat → Nat) (v : JSVal) (salt : Nat) : Nat :=
  if salt ≠ 0 then H2 (valueToFieldElement v) salt else H1 (valueToFieldElement v)

/-! ## Merkle tree (merkle-utils.js) -/

/-- One bottom-up pass of buildMerkleTree: adjacent pairs are hashed,
and an unpaired last element of an odd-length layer is hashed with a
duplicate of itself. -/
def hashLayer (H2 : Nat → Nat → Nat) : List Nat → List Nat
  | [] => []
  | [a] => [H2 a a]
  | a :: b :: rest => H2 a b :: hashLayer H2 rest

/-- The while loop of buildMerkleTree.  Each pass at least halves the
layer length, so the initial layer length bounds the number of passes
and serves as structural fuel. -/
def buildLayersAux (H2 : Nat → Nat → Nat) : Nat → List Nat → List (List Nat)
  | 0, cur => [cur]
  | fuel + 1, cur =>
    if 2 ≤ cur.length then cur :: buildLayersAux H2 fuel (hashLayer H2 cur)
    else [cur]

/-- Tree object of buildMerkleTree: every layer from the leaves up to
the single-element root layer, plus the root. -/
structure MerkleTree where
  layers : List (List Nat)
  root : Nat
deriving DecidableEq

/-- Proof object of generateMerkleProof: sibling hashes bottom-up and
the left/right position bits of the walked node. -/
structure MerkleProof where
  pathElements : List Nat
  pathIndices : List Nat
deriving DecidableEq

/-- The root of a built layer list: the single element of the last
layer (currentLayer[0] at the end of the while loop). -/
def rootOfLayers (layers : List (List Nat)) : Nat :=
  (layers.getLastD []).headD 0

/-- merkle-utils.js buildMerkleTree: fails on empty leaves, else builds
the layers bottom-up and exposes the root. -/
def buildMerkleTree (H2 : Nat → Nat → Nat) (leaves : List Nat) : Except CCError MerkleTree :=
  if leaves.isEmpty then .error .emptyInput
  else
    .ok { layers := buildLayersAux H2 leaves.length leaves
          root := rootOfLayers (buildLayersAux H2 leaves.length leaves) }

/-- The level loop of generateMerkleProof: for every layer below the
root layer, record the XOR-adjacent sibling (the node itself when that
position is out of bounds) and the position bit of the walked node,
then move to the parent index. -/
def genPath : List (List Nat) → Nat → List Nat × List Nat
  | [], _ => ([], [])
  | [_], _ => ([], [])
  | layer :: next :: rest, i =>
    ((if (if i % 2 = 0 then i + 1 else i - 1) < layer.length
        then layer.getD (if i % 2 = 0 then i + 1 else i - 1) 0
        else layer.getD i 0) :: (genPath (next :: rest) (i / 2)).1,
     (if i % 2 = 0 then (0 : Nat) else 1) :: (genPath (next :: rest) (i / 2)).2)

/-- merkle-utils.js generateMerkleProof: bounds-checks the leaf index
against the leaf layer, then walks the layers. -/
def generateMerkleProof (tree : MerkleTree) (leafIndex : Nat) : Except CCError MerkleProof :=
  match tree.layers with
  | [] => .error .invalidTree
  | leaves :: _ =>
    if leafIndex < leaves.length then
      .ok { pathElements := (genPath tree.layers leafIndex).1,
            pathIndices := (genPath tree.layers leafIndex).2 }
    else .error (.indexOutOfRange leafIndex)

/-- The recomputation loop of verifyMerkleProof: hash the running value
with each sibling, on the side selected by the position bit. -/
def verifyFold (H2 : Nat → Nat → Nat) (leaf : Nat) (path : List (Nat × Nat)) : Nat :=
  path.foldl (fun cur sb => if sb.2 = 0 then H2 cur sb.1 else H2 sb.1 cur) leaf

/-- merkle-utils.js verifyMerkleProof: fails when the two path lists
have different lengths, else recomputes the root from the leaf and
compares it with the expected root. -/
def verifyMerkleProof (H2 : Nat → Nat → Nat) (leaf : Nat) (proof : MerkleProof) (root : Nat) :
    Except CCError Bool :=
  if proof.pathElements.length ≠ proof.pathIndices.length then .error .malformedProof
  else .ok (verifyFold H2 leaf (proof.pathElements.zip proof.pathIndices) == root)

/-- Field lookup in a credential-fields object, embedded as an
association list. -/
def lookupField (fields : List (String × JSVal)) (name : String) : Option JSVal :=
  (fields.find? (fun p => p.1 == name)).map (·.2)

/-- The leaf loop of computeCredentialRoot: hash each named field in
order, failing on an absent name. -/
def leavesFor (H1 : Nat → Nat) (H2 : Nat → Nat → Nat) (fields : List (String × JSVal)) :
    List String → Except CCError (List Nat)
  | [] => .ok []
  | name :: rest =>
    match lookupField fields name with
    | none => .error (.missingField name)
    | some v =>
      match leavesFor H1 H2 fields rest with
      | .error e => .error e
      | .ok ls => .ok (computeLeafHash H1 H2 v 0 :: ls)

/-- merkle-utils.js computeCredentialRoot: leaf hashes in field order,
then the Merkle tree over them; returns root, tree and leaves. -/
def computeCredentialRoot (H1 : Nat → Nat) (H2 : Nat → Nat → Nat)
    (fields : List (String × JSVal)) (fieldOrder : List String) :
    Except CCError (Nat × MerkleTree × List Nat) :=
  if fieldOrder.isEmpty then .error (.validation "fields and fieldOrder are required")
  else
    match leavesFor H1 H2 fields fieldOrder with
    | .error e => .error e
    | .ok leaves =>
      match buildMerkleTree H2 leaves with
      | .error e => .error e
      | .ok tree => .ok (tree.root, tree, leaves)

/-! ## Chaincode data model (identity.js and its parallel bundle) -/

/-- A stored credential record, as written by IssueCredential and
updated by RevokeCredential. -/
structure Credential where
  credentialHash : String
  issuer : String
  timestamp : String
  valid : Bool
  revokedAt : Option String := none
  revocationReason : Option String := none
deriving DecidableEq

/-- A verification record, covering the record shapes written by
VerifyProof (valid field) and the VerifyAge variants (minimumAge,
credentialHash, isOfAge fields); absent fields are none. -/
structure VerificationRecord where
  userID : String
  txID : String
  timestamp : String
  valid : Option Bool := none
  minimumAge : Option Int := none
  credentialHash : Option String := none
  isOfAge : Option Bool := none
  publicSignals : List String := []
deriving DecidableEq

/-- The ledger state visible to the chaincode.  Composite keys with
distinct object types never collide, so each namespace is a separate
component: credentials under ("credential", [userID]) as an association
list keyed by userID, records under the "verification" and
"ageVerification" namespaces, and the emitted events as
(name, userID) pairs. -/
structure Ledger where
  credentials : List (String × Credential)
  verifications : List VerificationRecord
  ageVerifications : List VerificationRecord
  events : List (String × String)
deriving DecidableEq

/-- The empty ledger. -/
def ledger0 : Ledger := ⟨[], [], [], []⟩

/-- getState under the credential composite key of a user. -/
def getCred (st : Ledger) (userID : String) : Option Credential :=
  (st.credentials.find? (fun p => p.1 == userID)).map (·.2)

/-- putState under the credential composite key of a user: replace the
entry in place when the key is present, else append it. -/
def putCredList (l : List (String × Credential)) (userID : String) (c : Credential) :
    List (String × Credential) :=
  match l with
  | [] => [(userID, c)]
  | (k, v) :: rest =>
    if k == userID then (userID, c) :: rest
    else (k, v) :: putCredList rest userID c

/-- Ledger update writing one credential. -/
def putCred (st : Ledger) (userID : String) (c : Credential) : Ledger :=
  { st with credentials := putCredList st.credentials userID c }

/-- A transaction context.  txTimestampISO is the ISO rendering of the
deterministic transaction timestamp (ctx.stub.getTxTimestamp);
wallClockISO is what new Date().toISOString() returns on the executing
node at execution time. -/
structure TxCtx where
  txID : String
  txTimestampISO : String
  wallClockISO : String
deriving DecidableEq

/-- Outcome of receiving the proofJSON/publicSignalsJSON argument pair:
an argument is missing, the JSON is malformed, or both parse and the
external Groth16 verifier is consulted on them.  snarkOutcome is the
external verifier result (none when snarkjs itself throws).  The public
signals of snarkjs are decimal strings, embedded as List String. -/
inductive Groth16Payload where
  | missing
  | malformed
  | parsed (signals : List String) (snarkOutcome : Option Bool)
deriving DecidableEq

/-- Shared helper verifyGroth16Payload of both chaincode versions:
reject missing arguments and malformed JSON, surface a snarkjs throw,
else return the verifier verdict together with the parsed signals. -/
def verifyGroth16Payload : Groth16Payload → Except CCError (Bool × List String)
  | .missing => .error (.validation "proofJSON and publicSignalsJSON are required")
  | .malformed => .error .malformedPayload
  | .parsed signals (some v) => .ok (v, signals)
  | .parsed _ none => .error (.validation "snarkjs verification failed")

namespace IdJS

/-- identity.js IssueCredential: required-argument check, write-once
check, then store the credential with valid = true and emit the
issuance event.  The defaulted timestamp comes from new Date(), the
node wall clock. -/
def IssueCredential (ctx : TxCtx) (st : Ledger)
    (userID credentialHash issuer timestamp : String) :
    Except CCError (Ledger × Credential) :=
  if userID = "" ∨ credentialHash = "" then
    .error (.validation "userID and credentialHash are required")
  else
    match getCred st userID with
    | some _ => .error (.alreadyExists userID)
    | none =>
      let data : Credential :=
        { credentialHash := credentialHash
          issuer := if issuer = "" then "unknown" else issuer
          timestamp := if timestamp = "" then ctx.wallClockISO else timestamp
          valid := true }
      let st' := putCred st userID data
      .ok ({ st' with events := ("IssueCredential", userID) :: st'.events }, data)

/-- identity.js GetCredential: read-only lookup. -/
def GetCredential (st : Ledger) (userID : String) : Except CCError Credential :=
  if userID = "" then .error (.validation "userID is required")
  else
    match getCred st userID with
    | none => .error (.notFound userID)
    | some c => .ok c

/-- identity.js RevokeCredential: lookup, set valid := false, record
revokedAt (from the node wall clock) and the reason when given, store
and emit the revocation event. -/
def RevokeCredential (ctx : TxCtx) (st : Ledger) (userID reason : String) :
    Except CCError (Ledger × Credential) :=
  if userID = "" then .error (.validation "userID is required")
  else
    match getCred st userID with
    | none => .error (.notFound userID)
    | some obj =>
      let obj' : Credential :=
        { obj with
          valid := false
          revokedAt := some ctx.wallClockISO
          revocationReason := if reason = "" then obj.revocationReason else some reason }
      let st' := putCred st userID obj'
      .ok ({ st' with events := ("RevokeCredential", userID) :: st'.events }, obj')

/-- identity.js VerifyProof: run the external verifier and record its
verdict (accepted or not) under the "verification" namespace, with the
record timestamp from the node wall clock. -/
def VerifyProof (ctx : TxCtx) (st : Ledger) (userID : String) (payload : Groth16Payload) :
    Except CCError (Ledger × Bool) :=
  match verifyGroth16Payload payload with
  | .error e => .error e
  | .ok (valid, signals) =>
    let record : VerificationRecord :=
      { userID := userID, txID := ctx.txID, timestamp := ctx.wallClockISO
        valid := some valid, publicSignals := signals }
    .ok ({ st with
            verifications := record :: st.verifications
            events := ("VerifyProof", userID) :: st.events }, valid)

/-- identity.js VerifyAge (three-signal convention): argument checks,
external proof verification, positional interpretation of
publicSignals as [minimumAge, credentialHash, isOfAgeFlag], then an
acceptance record under the "ageVerification" namespace (record
timestamp from the node wall clock).  Every rejection throws before
any state is written. -/
def VerifyAge (ctx : TxCtx) (st : Ledger) (userID minimumAge : String)
    (payload : Groth16Payload) : Except CCError (Ledger × Int) :=
  if userID = "" then .error (.validation "userID is required")
  else if minimumAge = "" then .error (.validation "minimumAge is required")
  else
    match parseIntJS minimumAge with
    | none => .error (.validation "minimumAge must be a positive integer")
    | some minAgeInt =>
      if minAgeInt ≤ 0 then .error (.validation "minimumAge must be a positive integer")
      else
        match verifyGroth16Payload payload with
        | .error e => .error e
        | .ok (valid, signals) =>
          if !valid then .error .proofInvalid
          else if signals.length < 3 then
            .error (.signalMismatch "public signals must include minimumAge, credentialHash, isOfAgeFlag")
          else
            match toNumber (signals.getD 0 "") with
            | none => .error (.signalMismatch "circuit minimum age signal could not be parsed")
            | some circuitMinAge =>
              if circuitMinAge ≠ minAgeInt then
                .error (.signalMismatch "circuit minimum age does not match requested minimum age")
              else if !toBooleanSignal (signals.getD 2 "") then
                .error (.signalMismatch "holder does not meet the minimum age requirement")
              else
                let record : VerificationRecord :=
                  { userID := userID, txID := ctx.txID, timestamp := ctx.wallClockISO
                    minimumAge := some minAgeInt
                    credentialHash := some (signals.getD 1 "")
                    isOfAge := some true, publicSignals := signals }
                .ok ({ st with
                        ageVerifications := record :: st.ageVerifications
                        events := ("VerifyAge", userID) :: st.events }, minAgeInt)

/-- identity.js QueryVerifications: every record in the "verification"
namespace (the "ageVerification" namespace is a different key space and
is not iterated). -/
def QueryVerifications (st : Ledger) : List VerificationRecord :=
  st.verifications

end IdJS

namespace P007

/-- Parallel-bundle IssueCredential: identical to identity.js except
that the defaulted timestamp is derived from the transaction context
(ctx.stub.getTxTimestamp), not the node wall clock. -/
def IssueCredential (ctx : TxCtx) (st : Ledger)
    (userID credentialHash issuer timestamp : String) :
    Except CCError (Ledger × Credential) :=
  if userID = "" ∨ credentialHash = "" then
    .error (.validation "userID and credentialHash are required")
  else
    match getCred st userID with
    | some _ => .error (.alreadyExists userID)
    | none =>
      let data : Credential :=
        { credentialHash := credentialHash
          issuer := if issuer = "" then "unknown" else issuer
          timestamp := if timestamp = "" then ctx.txTimestampISO else timestamp
          valid := true }
      let st' := putCred st userID data
      .ok ({ st' with events := ("IssueCredential", userID) :: st'.events }, data)

/-- Parallel-bundle VerifyAge (single-signal convention): the single
public output isAdult must be the string "1"; rejections throw before
any state is written; the acceptance record timestamp comes from the
transaction context.  The recorded minimumAge is the caller string
defaulted to 18. -/
def VerifyAge (ctx : TxCtx) (st : Ledger) (userID minimumAge : String)
    (payload : Groth16Payload) : Except CCError (Ledger × Bool) :=
  if userID = "" then .error (.validation "userID is required")
  else
    match verifyGroth16Payload payload with
    | .error e => .error e
    | .ok (valid, signals) =>
      if !valid then .error .proofInvalid
      else if signals.isEmpty then .error (.signalMismatch "public signals empty")
      else if signals.headD "" ≠ "1" then
        .error (.signalMismatch "holder is not an adult")
      else
        let record : VerificationRecord :=
          { userID := userID, txID := ctx.txID, timestamp := ctx.txTimestampISO
            minimumAge := some ((parseIntJS (if minimumAge = "" then "18" else minimumAge)).getD 18)
            isOfAge := some true, publicSignals := signals }
        .ok ({ st with
                ageVerifications := record :: st.ageVerifications
                events := ("VerifyAge", userID) :: st.events }, true)

end P007

/-- Modelled from the spec: the merkle-binding VerifyAge taking the
bound root hash as a fifth argument.  This variant is invoked by the
repository's test scripts (five Args including a rootHash) and
specified step by step in MERKLE_INTEGRATION.md (verify proof, check
the adulthood signal, fetch the on-chain credential, reject revoked
credentials, compare the supplied root with the stored credentialHash
after normalizing both to arbitrary-precision integers, then record
the successful verification), but its implementation file is not in
the source tree.  Timestamps come from the transaction context as the
specification requires. -/
def VerifyAgeBound (ctx : TxCtx) (st : Ledger) (userID minimumAge : String)
    (payload : Groth16Payload) (rootHash : String) : Except CCError (Ledger × Bool) :=
  if userID = "" then .error (.validation "userID is required")
  else if rootHash = "" then .error (.validation "rootHash is required")
  else
    match verifyGroth16Payload payload with
    | .error e => .error e
    | .ok (valid, signals) =>
      if !valid then .error .proofInvalid
      else if signals.isEmpty then .error (.signalMismatch "public signals empty")
      else if signals.headD "" ≠ "1" then
        .error (.signalMismatch "holder is not an adult")
      else
        match getCred st userID with
        | none => .error (.notFound userID)
        | some cred =>
          if !cred.valid then .error (.revokedCredential userID)
          else
            match jsBigIntOfString rootHash, jsBigIntOfString cred.credentialHash with
            | some supplied, some stored =>
              if supplied ≠ stored then .error .rootMismatch
              else
                let record : VerificationRecord :=
                  { userID := userID, txID := ctx.txID, timestamp := ctx.txTimestampISO
                    minimumAge := parseIntJS minimumAge
                    credentialHash := some cred.credentialHash
                    isOfAge := some true, publicSignals := signals }
                .ok ({ st with
                        ageVerifications := record :: st.ageVerifications
                        events := ("VerifyAge", userID) :: st.events }, true)
            | _, _ => .error .encodingError

/-! ## Operation sequences over the ledger -/

/-- One engine invocation: the exposed operations of the chaincode. -/
inductive Op where
  | issue (userID credentialHash issuer timestamp : String)
  | getc (userID : String)
  | revoke (userID reason : String)
  | verifyProof (userID : String) (payload : Groth16Payload)
  | verifyAge (userID minimumAge : String) (payload : Groth16Payload)
  | verifyAgeAlt (userID minimumAge : String) (payload : Groth16Payload)
  | queryVerifications
deriving DecidableEq

/-- Commit semantics of the host ledger: a successful invocation
commits the produced state; a thrown error aborts the transaction and
every write of the attempt is discarded, leaving the ledger unchanged.
verifyAge is the identity.js variant, verifyAgeAlt the parallel-bundle
variant. -/
def applyOp (ctx : TxCtx) (st : Ledger) : Op → Ledger
  | .issue u h i t =>
    match IdJS.IssueCredential ctx st u h i t with
    | .ok (st', _) => st'
    | .error _ => st
  | .getc _ => st
  | .revoke u r =>
    match IdJS.RevokeCredential ctx st u r with
    | .ok (st', _) => st'
    | .error _ => st
  | .verifyProof u p =>
    match IdJS.VerifyProof ctx st u p with
    | .ok (st', _) => st'
    | .error _ => st
  | .verifyAge u ma p =>
    match IdJS.VerifyAge ctx st u ma p with
    | .ok (st', _) => st'
    | .error _ => st
  | .verifyAgeAlt u ma p =>
    match P007.VerifyAge ctx st u ma p with
    | .ok (st', _) => st'
    | .error _ => st
  | .queryVerifications => st

/-- Run a sequence of transactions, each with its own context. -/
def run (st : Ledger) (ops : List (TxCtx × Op)) : Ledger :=
  ops.foldl (fun s co => applyOp co.1 s co.2) st

/-! ## Concrete instances used by witnesses -/

deriving instance DecidableEq for Except

/-- A concrete unary hash standing in for Poseidon in witnesses. -/
def Hc1 : Nat → Nat := fun n => 2 * n + 7

/-- A concrete binary hash standing in for Poseidon in witnesses. -/
def Hc2 : Nat → Nat → Nat := fun a b => 2 * a + 3 * b + 5

/-- A concrete transaction context. -/
def ctx0 : TxCtx := ⟨"tx0", "2024-01-01T00:00:00.000Z", "2024-06-01T12:00:00.000Z"⟩

/-- A context on replica A: transaction data equal to ctxB, local wall
clock different. -/
def ctxA : TxCtx := ⟨"tx1", "2024-01-01T00:00:00.000Z", "2024-06-01T12:00:00.000Z"⟩

/-- A context on replica B: transaction data equal to ctxA, local wall
clock different. -/
def ctxB : TxCtx := ⟨"tx1", "2024-01-01T00:00:00.000Z", "2025-02-02T08:30:00.000Z"⟩

/-- A stored valid credential whose root is 255 (decimal rendering). -/
def credR : Credential :=
  { credentialHash := "255", issuer := "iss", timestamp := "t0", valid := true }

/-- The same credential after revocation. -/
def credRev : Credential :=
  { credR with valid := false, revokedAt := some "t1", revocationReason := some "expired" }

/-- A ledger holding the valid credential for holder u1. -/
def stR : Ledger := { ledger0 with credentials := [("u1", credR)] }

/-- A ledger holding the revoked credential for holder u1. -/
def stRev : Ledger := { ledger0 with credentials := [("u1", credRev)] }

/-- Accepted external proof, three-signal convention, adulthood flag 0. -/
def payloadFlag0 : Groth16Payload := .parsed ["18", "99", "0"] (some true)

/-- Accepted external proof, three-signal convention, adulthood flag 1. -/
def payloadFlag1 : Groth16Payload := .parsed ["18", "99", "1"] (some true)

/-- Accepted external proof, single-signal convention, isAdult 0. -/
def payloadAdult0 : Groth16Payload := .parsed ["0"] (some true)

/-- Accepted external proof, single-signal convention, isAdult 1. -/
def payloadAdult1 : Groth16Payload := .parsed ["1"] (some true)

/-- A payload the external verifier rejects. -/
def payloadReject : Groth16Payload := .parsed ["7"] (some false)

/-- 32 bytes of 0x41: a non-numeric string longer than 31 bytes. -/
def sBytes : List Nat := List.replicate 32 65

/-- Same first 31 bytes as sBytes, different 32nd byte. -/
def tBytes : List Nat := List.replicate 31 65 ++ [66]

/-- Issue then revoke the credential of holder u1. -/
def opsIssueRevoke : List (TxCtx × Op) :=
  [(ctx0, .issue "u1" "42" "iss" "ts0"), (ctx0, .revoke "u1" "compromised")]

/-- The stored credential of u1 after opsIssueRevoke. -/
def credAfterRevoke : Credential :=
  { credentialHash := "42", issuer := "iss", timestamp := "ts0", valid := false
    revokedAt := some "2024-06-01T12:00:00.000Z"
    revocationReason := some "compromised" }

/-- A follow-up batch exercising every operation kind on holder u1. -/
def opsAfter : List (TxCtx × Op) :=
  [(ctx0, .issue "u1" "43" "other" "ts1"),
   (ctx0, .verifyProof "u1" payloadAdult1),
   (ctx0, .verifyAge "u1" "18" payloadFlag1),
   (ctx0, .verifyAgeAlt "u1" "18" payloadAdult1),
   (ctx0, .getc "u1"),
   (ctx0, .queryVerifications)]

/-- The record identity.js VerifyAge writes on the accepted
payloadFlag1 attempt in context ctx0 over the empty ledger. -/
def recSucc : VerificationRecord :=
  { userID := "u1", txID := "tx0", timestamp := "2024-06-01T12:00:00.000Z"
    minimumAge := some 18, credentialHash := some "99", isOfAge := some true
    publicSignals := ["18", "99", "1"] }

/-- The ledger after that accepted VerifyAge attempt. -/
def stSucc : Ledger :=
  { ledger0 with ageVerifications := [recSucc], events := [("VerifyAge", "u1")] }

/-- The record identity.js VerifyProof writes when the external
verifier rejects payloadReject in context ctx0. -/
def recVP : VerificationRecord :=
  { userID := "u1", txID := "tx0", timestamp := "2024-06-01T12:00:00.000Z"
    valid := some false, publicSignals := ["7"] }

/-- The ledger after that completed VerifyProof attempt. -/
def stVP : Ledger :=
  { ledger0 with verifications := [recVP], events := [("VerifyProof", "u1")] }

/-! ## Merkle tree lemmas -/

theorem hashLayer_length (H2 : Nat → Nat → Nat) :
    ∀ l : List Nat, (hashLayer H2 l).length = (l.length + 1) / 2
  | [] => by simp [hashLayer]
  | [_] => by simp [hashLayer]
  | _ :: _ :: rest => by
      simp [hashLayer, hashLayer_length H2 rest]
      omega

theorem hashLayer_getD (H2 : Nat → Nat → Nat) :
    ∀ (l : List Nat) (i : Nat), i < l.length →
      (hashLayer H2 l).getD (i / 2) 0 =
        if i % 2 = 0 then
          (if i + 1 < l.length then H2 (l.getD i 0) (l.getD (i + 1) 0)
           else H2 (l.getD i 0) (l.getD i 0))
        else H2 (l.getD (i - 1) 0) (l.getD i 0)
  | [], i, h => by simp at h
  | [a], i, h => by
      have hi : i = 0 := by simp at h; omega
      subst hi
      simp [hashLayer]
  | a :: b :: rest, 0, h => by
      simp [hashLayer]
  | a :: b :: rest, 1, h => by
      simp [hashLayer]
  | a :: b :: rest, (k + 2), h => by
      have hk : k < rest.length := by simp at h; omega
      have IH := hashLayer_getD H2 rest k hk
      have hdiv : (k + 2) / 2 = k / 2 + 1 := by omega
      have hmod : (k + 2) % 2 = k % 2 := by omega
      have hgk : (a :: b :: rest).getD (k + 2) 0 = rest.getD k 0 := by
        simp [List.getD_cons_succ]
      have hgk1 : (a :: b :: rest).getD (k + 3) 0 = rest.getD (k + 1) 0 := by
        simp [List.getD_cons_succ]
      rw [hdiv, hmod]
      simp only [hashLayer, List.getD_cons_succ]
      by_cases hpar : k % 2 = 0
      · rw [if_pos hpar] at IH ⊢
        by_cases hlt : k + 1 < rest.length
        · have hlt2 : k + 2 + 1 < (a :: b :: rest).length := by simp; omega
          rw [if_pos hlt] at IH
          rw [if_pos hlt2, IH]
        · have hlt2 : ¬ (k + 2 + 1 < (a :: b :: rest).length) := by simp; omega
          rw [if_neg hlt] at IH
          rw [if_neg hlt2, IH]
      · rw [if_neg hpar] at IH ⊢
        have hk1 : 1 ≤ k := by omega
        have hgkm : (a :: b :: rest).getD (k + 2 - 1) 0 = rest.getD (k - 1) 0 := by
          have : k + 2 - 1 = (k - 1) + 2 := by omega
          rw [this]
          simp [List.getD_cons_succ]
        rw [hgkm]
        exact IH

theorem genPath_length_eq :
    ∀ (ls : List (List Nat)) (i : Nat), (genPath ls i).1.length = (genPath ls i).2.length
  | [], _ => rfl
  | [_], _ => rfl
  | _ :: next :: rest, i => by
      simp [genPath, genPath_length_eq (next :: rest) (i / 2)]

theorem buildLayersAux_head (H2 : Nat → Nat → Nat) :
    ∀ (fuel : Nat) (l : List Nat), ∃ rest, buildLayersAux H2 fuel l = l :: rest
  | 0, l => ⟨[], rfl⟩
  | fuel + 1, l => by
      by_cases h : 2 ≤ l.length
      · exact ⟨buildLayersAux H2 fuel (hashLayer H2 l), by simp [buildLayersAux, h]⟩
      · exact ⟨[], by simp [buildLayersAux, h]⟩

theorem rootOfLayers_cons (x y : List Nat) (r : List (List Nat)) :
    rootOfLayers (x :: y :: r) = rootOfLayers (y :: r) := by
  simp [rootOfLayers, List.getLastD_cons]

theorem verifyFold_cons (H2 : Nat → Nat → Nat) (leaf sib bit : Nat) (z : List (Nat × Nat)) :
    verifyFold H2 leaf ((sib, bit) :: z) =
      verifyFold H2 (if bit = 0 then H2 leaf sib else H2 sib leaf) z := by
  simp [verifyFold]

theorem verifyFold_genPath (H2 : Nat → Nat → Nat) :
    ∀ (fuel : Nat) (l : List Nat) (i : Nat), l.length ≤ fuel + 1 → 0 < l.length →
      i < l.length →
      verifyFold H2 (l.getD i 0)
        ((genPath (buildLayersAux H2 fuel l) i).1.zip (genPath (buildLayersAux H2 fuel l) i).2)
        = rootOfLayers (buildLayersAux H2 fuel l)
  | 0, l, i, hf, hpos, hi => by
      have h1 : l.length = 1 := by omega
      obtain ⟨x, rfl⟩ := List.length_eq_one.mp h1
      have hi0 : i = 0 := by simp at hi; omega
      subst hi0
      simp [buildLayersAux, genPath, verifyFold, rootOfLayers]
  | fuel + 1, l, i, hf, hpos, hi => by
      by_cases h2 : 2 ≤ l.length
      · obtain ⟨rest, hrest⟩ := buildLayersAux_head H2 fuel (hashLayer H2 l)
        have hstep : buildLayersAux H2 (fuel + 1) l
            = l :: buildLayersAux H2 fuel (hashLayer H2 l) := by
          simp [buildLayersAux, h2]
        rw [hstep, hrest]
        simp only [genPath, List.zip_cons_cons, verifyFold_cons]
        rw [rootOfLayers_cons]
        have hcomb :
            (if (if i % 2 = 0 then (0 : Nat) else 1) = 0 then
               H2 (l.getD i 0)
                 (if (if i % 2 = 0 then i + 1 else i - 1) < l.length
                    then l.getD (if i % 2 = 0 then i + 1 else i - 1) 0
                    else l.getD i 0)
             else
               H2 (if (if i % 2 = 0 then i + 1 else i - 1) < l.length
                     then l.getD (if i % 2 = 0 then i + 1 else i - 1) 0
                     else l.getD i 0)
                 (l.getD i 0))
            = (hashLayer H2 l).getD (i / 2) 0 := by
          rw [hashLayer_getD H2 l i hi]
          by_cases hpar : i % 2 = 0
          · by_cases hlt : i + 1 < l.length <;> simp [hpar, hlt]
          · have hm1 : i - 1 < l.length := by omega
            simp [hpar, hm1]
        rw [hcomb, ← hrest]
        have hlen := hashLayer_length H2 l
        exact verifyFold_genPath H2 fuel (hashLayer H2 l) (i / 2)
          (by omega) (by omega) (by omega)
      · have h1 : l.length = 1 := by omega
        obtain ⟨x, rfl⟩ := List.length_eq_one.mp h1
        have hi0 : i = 0 := by simp at hi; omega
        subst hi0
        simp [buildLayersAux, genPath, verifyFold, rootOfLayers, h2]

/-! ## Claim C1 -/

/-- Claim C1: for every non-empty list of field-element leaves and
every index i below the leaf count, building the Merkle tree over the
leaves, generating the proof for leaf i, and verifying that proof for
leaves[i] against the tree's root returns true — for any binary hash
function H2. -/
theorem merkle_build_prove_verify (H2 : Nat → Nat → Nat) (leaves : List Nat) (i : Nat)
    (hne : leaves ≠ []) (hi : i < leaves.length) :
    ∃ t p, buildMerkleTree H2 leaves = .ok t ∧ generateMerkleProof t i = .ok p ∧
      verifyMerkleProof H2 (leaves.getD i 0) p t.root = .ok true := by
  have hemp : leaves.isEmpty = false := by
    cases leaves with
    | nil => exact absurd rfl hne
    | cons a l => rfl
  obtain ⟨rest, hrest⟩ := buildLayersAux_head H2 leaves.length leaves
  refine ⟨⟨buildLayersAux H2 leaves.length leaves,
           rootOfLayers (buildLayersAux H2 leaves.length leaves)⟩,
          ⟨(genPath (buildLayersAux H2 leaves.length leaves) i).1,
           (genPath (buildLayersAux H2 leaves.length leaves) i).2⟩, ?_, ?_, ?_⟩
  · simp [buildMerkleTree, hemp]
  · simp only [generateMerkleProof]
    rw [hrest]
    simp [hi]
  · have hlen := genPath_length_eq (buildLayersAux H2 leaves.length leaves) i
    have hfold := verifyFold_genPath H2 leaves.length leaves i (by omega)
      (List.length_pos.mpr hne) hi
    simp only [List.getD_eq_getElem?_getD] at hfold
    simp [verifyMerkleProof, hlen, hfold]

/-- Witness for C1 at a concrete hash, leaf list and index. -/
theorem merkle_build_prove_verify_witness :
    ∃ t p, buildMerkleTree Hc2 [3, 5, 7] = .ok t ∧ generateMerkleProof t 2 = .ok p ∧
      verifyMerkleProof Hc2 (([3, 5, 7] : List Nat).getD 2 0) p t.root = .ok true :=
  merkle_build_prove_verify Hc2 [3, 5, 7] 2 (by decide) (by decide)

/-! ## Claim C4 -/

theorem getLastD_cons_ne {α : Type} (x : α) (l : List α) (d : α) (h : l ≠ []) :
    (x :: l).getLastD d = l.getLastD d := by
  cases l with
  | nil => exact absurd rfl h
  | cons y t => simp [List.getLastD_cons]

/-- Claim C4: at every odd-length layer the unpaired last element is
hashed with a duplicate of itself (not zero-padded), and the generated
proof uses the node itself as sibling when the XOR-adjacent position is
out of bounds: concretely, in a 3-leaf tree the proof for leaf index 2
has leaf 2 itself as its level-0 path element (and position bit 0). -/
theorem merkle_odd_duplication (H2 : Nat → Nat → Nat) :
    (∀ l : List Nat, l.length % 2 = 1 →
       (hashLayer H2 l).getLastD 0 = H2 (l.getLastD 0) (l.getLastD 0)) ∧
    (∀ a b c : Nat, ∃ t p,
       buildMerkleTree H2 [a, b, c] = .ok t ∧ generateMerkleProof t 2 = .ok p ∧
       p.pathElements = [c, H2 a b] ∧ p.pathIndices = [0, 1]) := by
  constructor
  · intro l
    induction l using hashLayer.induct H2 with
    | case1 => intro h; simp at h
    | case2 a => intro _; simp [hashLayer]
    | case3 a b rest ih =>
      intro h
      have hodd : rest.length % 2 = 1 := by simp at h; omega
      have hne : rest ≠ [] := by
        intro hnil
        rw [hnil] at hodd
        simp at hodd
      have hne2 : hashLayer H2 rest ≠ [] := by
        have := hashLayer_length H2 rest
        intro hnil
        rw [hnil] at this
        simp at this
        have := List.length_pos.mpr hne
        omega
      rw [hashLayer, getLastD_cons_ne _ _ _ hne2,
        getLastD_cons_ne a (b :: rest) 0 (by simp), getLastD_cons_ne b rest 0 hne]
      exact ih hodd
  · intro a b c
    exact ⟨_, _, rfl, rfl, rfl, rfl⟩

/-- Witness for C4: a singleton layer hashes its element with itself,
and the concrete 3-leaf proof for index 2 carries leaf 2 at level 0. -/
theorem merkle_odd_duplication_witness :
    (hashLayer Hc2 [5]).getLastD 0 = Hc2 (([5] : List Nat).getLastD 0) (([5] : List Nat).getLastD 0) ∧
    (∃ t p, buildMerkleTree Hc2 [1, 2, 3] = .ok t ∧ generateMerkleProof t 2 = .ok p ∧
       p.pathElements = [3, Hc2 1 2] ∧ p.pathIndices = [0, 1]) :=
  ⟨(merkle_odd_duplication Hc2).1 [5] (by decide), (merkle_odd_duplication Hc2).2 1 2 3⟩

/-! ## Claim C10 -/

theorem leavesFor_head_congr (H1 : Nat → Nat) (H2 : Nat → Nat → Nat)
    (name : String) (others : List (String × JSVal)) (v w : JSVal)
    (hvw : valueToFieldElement v = valueToFieldElement w) :
    ∀ order : List String,
      leavesFor H1 H2 ((name, v) :: others) order =
      leavesFor H1 H2 ((name, w) :: others) order
  | [] => rfl
  | nm :: rest => by
      have ih := leavesFor_head_congr H1 H2 name others v w hvw rest
      by_cases h : name == nm
      · simp [leavesFor, lookupField, List.find?, h, ih, computeLeafHash, hvw]
      · simp [leavesFor, lookupField, List.find?, h, ih]

/-- Claim C10: the field encoding of non-numeric strings is not
injective: two non-numeric strings of length at least 31 bytes whose
UTF-8 bytes agree on the first 31 bytes encode to the same field
element, so two credentials that differ only after the 31st byte of
such an attribute value produce identical leaves and an identical
root. -/
theorem encode_truncation_collision (s t : List Nat)
    (hs : numericBytes s = false) (ht : numericBytes t = false)
    (hls : 31 ≤ s.length) (hlt : 31 ≤ t.length)
    (hpre : s.take 31 = t.take 31) :
    valueToFieldElement (.str s) = valueToFieldElement (.str t) ∧
    ∀ (H1 : Nat → Nat) (H2 : Nat → Nat → Nat) (name : String)
      (others : List (String × JSVal)) (order : List String),
      computeCredentialRoot H1 H2 ((name, .str s) :: others) order =
      computeCredentialRoot H1 H2 ((name, .str t) :: others) order := by
  have henc : valueToFieldElement (.str s) = valueToFieldElement (.str t) := by
    simp [valueToFieldElement, hs, ht, hpre]
  refine ⟨henc, ?_⟩
  intro H1 H2 name others order
  unfold computeCredentialRoot
  rw [leavesFor_head_congr H1 H2 name others _ _ henc order]

/-- Witness for C10: two concrete 32-byte non-numeric strings agreeing
on their first 31 bytes encode equally and give the same credential
root. -/
theorem encode_truncation_collision_witness :
    valueToFieldElement (.str sBytes) = valueToFieldElement (.str tBytes) ∧
    computeCredentialRoot Hc1 Hc2 [("dob", .str sBytes)] ["dob"] =
      computeCredentialRoot Hc1 Hc2 [("dob", .str tBytes)] ["dob"] :=
  ⟨(encode_truncation_collision sBytes tBytes (by decide) (by decide) (by decide)
      (by decide) (by decide)).1,
   (encode_truncation_collision sBytes tBytes (by decide) (by decide) (by decide)
      (by decide) (by decide)).2 Hc1 Hc2 "dob" [] ["dob"]⟩

/-! ## Ledger-state lemmas -/

theorem putCredList_find_same :
    ∀ (l : List (String × Credential)) (u : String) (c : Credential),
      (putCredList l u c).find? (fun p => p.1 == u) = some (u, c)
  | [], u, c => by simp [putCredList, List.find?]
  | (k, v) :: rest, u, c => by
      by_cases h : k == u
      · simp [putCredList, h, List.find?]
      · simp [putCredList, h, List.find?, putCredList_find_same rest u c]

theorem putCredList_find_other :
    ∀ (l : List (String × Credential)) (u : String) (c : Credential) (x : String),
      x ≠ u →
      (putCredList l u c).find? (fun p => p.1 == x) = l.find? (fun p => p.1 == x)
  | [], u, c, x, hx => by
      have hux : (u == x) = false := beq_eq_false_iff_ne.mpr (Ne.symm hx)
      simp [putCredList, List.find?, hux]
  | (k, v) :: rest, u, c, x, hx => by
      by_cases h : k == u
      · have hk : k = u := by simpa using h
        subst hk
        have hkx : (k == x) = false := beq_eq_false_iff_ne.mpr (Ne.symm hx)
        simp [putCredList, List.find?, hkx]
      · by_cases h2 : k == x <;>
          simp [putCredList, h, h2, List.find?, putCredList_find_other rest u c x hx]

theorem getCred_putCred_same (st : Ledger) (u : String) (c : Credential) :
    getCred (putCred st u c) u = some c := by
  simp [getCred, putCred, putCredList_find_same]

theorem getCred_putCred_other (st : Ledger) (u : String) (c : Credential) (x : String)
    (hx : x ≠ u) : getCred (putCred st u c) x = getCred st x := by
  simp [getCred, putCred, putCredList_find_other st.credentials u c x hx]

theorem mem_keys_putCredList :
    ∀ (l : List (String × Credential)) (u : String) (c : Credential) (x : String),
      x ∈ (putCredList l u c).map Prod.fst → x ∈ l.map Prod.fst ∨ x = u
  | [], u, c, x => by
      intro h
      right
      simpa [putCredList] using h
  | (k, v) :: rest, u, c, x => by
      by_cases h : k == u
      · intro hx
        simp only [putCredList, if_pos h, List.map_cons, List.mem_cons] at hx
        rcases hx with rfl | hx
        · exact Or.inr rfl
        · exact Or.inl (by simp [hx])
      · intro hx
        simp only [putCredList, if_neg h, List.map_cons, List.mem_cons] at hx
        rcases hx with rfl | hx
        · exact Or.inl (by simp)
        · rcases mem_keys_putCredList rest u c x hx with h1 | h2
          · exact Or.inl (by simp [h1])
          · exact Or.inr h2

theorem keys_nodup_putCredList :
    ∀ (l : List (String × Credential)) (u : String) (c : Credential),
      (l.map Prod.fst).Nodup → ((putCredList l u c).map Prod.fst).Nodup
  | [], u, c, _ => by simp [putCredList]
  | (k, v) :: rest, u, c, hnd => by
      simp only [List.map_cons, List.nodup_cons] at hnd
      by_cases h : k == u
      · have hk : k = u := by simpa using h
        subst hk
        simp [putCredList, List.nodup_cons, hnd.1, hnd.2]
      · have hnd2 := keys_nodup_putCredList rest u c hnd.2
        have hknotin : k ∉ (putCredList rest u c).map Prod.fst := by
          intro hmem
          rcases mem_keys_putCredList rest u c k hmem with h1 | h2
          · exact hnd.1 h1
          · exact h (by simp [h2])
        simp [putCredList, h, List.nodup_cons, hknotin, hnd2]

theorem verifyProof_ok_shape (ctx : TxCtx) (st : Ledger) (u : String)
    (p : Groth16Payload) (st' : Ledger) (v : Bool)
    (h : IdJS.VerifyProof ctx st u p = .ok (st', v)) :
    ∃ rec : VerificationRecord, st'.verifications = rec :: st.verifications ∧
      rec.valid = some v ∧ st'.credentials = st.credentials ∧
      st'.ageVerifications = st.ageVerifications := by
  unfold IdJS.VerifyProof at h
  repeat' split at h
  all_goals cases h
  all_goals exact ⟨_, rfl, rfl, rfl, rfl⟩

theorem verifyAge_ok_shape (ctx : TxCtx) (st : Ledger) (u ma : String)
    (p : Groth16Payload) (st' : Ledger) (r : Int)
    (h : IdJS.VerifyAge ctx st u ma p = .ok (st', r)) :
    ∃ rec : VerificationRecord, st'.ageVerifications = rec :: st.ageVerifications ∧
      rec.isOfAge = some true ∧ st'.credentials = st.credentials ∧
      st'.verifications = st.verifications := by
  unfold IdJS.VerifyAge at h
  repeat' split at h
  all_goals cases h
  all_goals exact ⟨_, rfl, rfl, rfl, rfl⟩

theorem verifyAgeAlt_ok_shape (ctx : TxCtx) (st : Ledger) (u ma : String)
    (p : Groth16Payload) (st' : Ledger) (r : Bool)
    (h : P007.VerifyAge ctx st u ma p = .ok (st', r)) :
    ∃ rec : VerificationRecord, st'.ageVerifications = rec :: st.ageVerifications ∧
      rec.isOfAge = some true ∧ st'.credentials = st.credentials ∧
      st'.verifications = st.verifications := by
  unfold P007.VerifyAge at h
  repeat' split at h
  all_goals cases h
  all_goals exact ⟨_, rfl, rfl, rfl, rfl⟩

theorem applyOp_preserves_revoked (ctx : TxCtx) (st : Ledger) (op : Op) (u : String)
    (c : Credential) (hc : getCred st u = some c) (hv : c.valid = false) :
    ∃ c', getCred (applyOp ctx st op) u = some c' ∧ c'.valid = false := by
  cases op with
  | issue u0 h0 i0 t0 =>
    simp only [applyOp]
    cases hres : IdJS.IssueCredential ctx st u0 h0 i0 t0 with
    | error e => exact ⟨c, hc, hv⟩
    | ok pr =>
      obtain ⟨st', data⟩ := pr
      unfold IdJS.IssueCredential at hres
      by_cases harg : u0 = "" ∨ h0 = ""
      · rw [if_pos harg] at hres; cases hres
      · rw [if_neg harg] at hres
        cases hcu : getCred st u0 with
        | some _ => rw [hcu] at hres; cases hres
        | none =>
          rw [hcu] at hres
          cases hres
          have hne : u ≠ u0 := by
            intro he
            rw [he, hcu] at hc
            cases hc
          exact ⟨c, (getCred_putCred_other st u0 _ u hne).trans hc, hv⟩
  | revoke u0 r0 =>
    simp only [applyOp]
    cases hres : IdJS.RevokeCredential ctx st u0 r0 with
    | error e => exact ⟨c, hc, hv⟩
    | ok pr =>
      obtain ⟨st', obj'⟩ := pr
      unfold IdJS.RevokeCredential at hres
      by_cases harg : u0 = ""
      · rw [if_pos harg] at hres; cases hres
      · rw [if_neg harg] at hres
        cases hcu : getCred st u0 with
        | none => rw [hcu] at hres; cases hres
        | some obj =>
          rw [hcu] at hres
          cases hres
          by_cases he : u = u0
          · subst he
            exact ⟨_, getCred_putCred_same st _ _, rfl⟩
          · exact ⟨c, (getCred_putCred_other st u0 _ u he).trans hc, hv⟩
  | getc u0 => exact ⟨c, hc, hv⟩
  | queryVerifications => exact ⟨c, hc, hv⟩
  | verifyProof u0 p0 =>
    simp only [applyOp]
    cases hres : IdJS.VerifyProof ctx st u0 p0 with
    | error e => exact ⟨c, hc, hv⟩
    | ok pr =>
      obtain ⟨st', v⟩ := pr
      obtain ⟨_, _, _, hcr, _⟩ := verifyProof_ok_shape ctx st u0 p0 st' v hres
      refine ⟨c, ?_, hv⟩
      simp only [getCred] at hc ⊢
      rw [hcr]
      exact hc
  | verifyAge u0 ma0 p0 =>
    simp only [applyOp]
    cases hres : IdJS.VerifyAge ctx st u0 ma0 p0 with
    | error e => exact ⟨c, hc, hv⟩
    | ok pr =>
      obtain ⟨st', r⟩ := pr
      obtain ⟨_, _, _, hcr, _⟩ := verifyAge_ok_shape ctx st u0 ma0 p0 st' r hres
      refine ⟨c, ?_, hv⟩
      simp only [getCred] at hc ⊢
      rw [hcr]
      exact hc
  | verifyAgeAlt u0 ma0 p0 =>
    simp only [applyOp]
    cases hres : P007.VerifyAge ctx st u0 ma0 p0 with
    | error e => exact ⟨c, hc, hv⟩
    | ok pr =>
      obtain ⟨st', r⟩ := pr
      obtain ⟨_, _, _, hcr, _⟩ := verifyAgeAlt_ok_shape ctx st u0 ma0 p0 st' r hres
      refine ⟨c, ?_, hv⟩
      simp only [getCred] at hc ⊢
      rw [hcr]
      exact hc

theorem applyOp_keys_nodup (ctx : TxCtx) (st : Ledger) (op : Op)
    (h : (st.credentials.map Prod.fst).Nodup) :
    ((applyOp ctx st op).credentials.map Prod.fst).Nodup := by
  cases op with
  | issue u0 h0 i0 t0 =>
    simp only [applyOp]
    cases hres : IdJS.IssueCredential ctx st u0 h0 i0 t0 with
    | error e => exact h
    | ok pr =>
      obtain ⟨st', data⟩ := pr
      unfold IdJS.IssueCredential at hres
      by_cases harg : u0 = "" ∨ h0 = ""
      · rw [if_pos harg] at hres; cases hres
      · rw [if_neg harg] at hres
        cases hcu : getCred st u0 with
        | some _ => rw [hcu] at hres; cases hres
        | none =>
          rw [hcu] at hres
          cases hres
          simp only [putCred]
          exact keys_nodup_putCredList st.credentials u0 _ h
  | revoke u0 r0 =>
    simp only [applyOp]
    cases hres : IdJS.RevokeCredential ctx st u0 r0 with
    | error e => exact h
    | ok pr =>
      obtain ⟨st', obj'⟩ := pr
      unfold IdJS.RevokeCredential at hres
      by_cases harg : u0 = ""
      · rw [if_pos harg] at hres; cases hres
      · rw [if_neg harg] at hres
        cases hcu : getCred st u0 with
        | none => rw [hcu] at hres; cases hres
        | some obj =>
          rw [hcu] at hres
          cases hres
          simp only [putCred]
          exact keys_nodup_putCredList st.credentials u0 _ h
  | getc u0 => exact h
  | queryVerifications => exact h
  | verifyProof u0 p0 =>
    simp only [applyOp]
    cases hres : IdJS.VerifyProof ctx st u0 p0 with
    | error e => exact h
    | ok pr =>
      obtain ⟨st', v⟩ := pr
      obtain ⟨_, _, _, hcr, _⟩ := verifyProof_ok_shape ctx st u0 p0 st' v hres
      rw [hcr]
      exact h
  | verifyAge u0 ma0 p0 =>
    simp only [applyOp]
    cases hres : IdJS.VerifyAge ctx st u0 ma0 p0 with
    | error e => exact h
    | ok pr =>
      obtain ⟨st', r⟩ := pr
      obtain ⟨_, _, _, hcr, _⟩ := verifyAge_ok_shape ctx st u0 ma0 p0 st' r hres
      rw [hcr]
      exact h
  | verifyAgeAlt u0 ma0 p0 =>
    simp only [applyOp]
    cases hres : P007.VerifyAge ctx st u0 ma0 p0 with
    | error e => exact h
    | ok pr =>
      obtain ⟨st', r⟩ := pr
      obtain ⟨_, _, _, hcr, _⟩ := verifyAgeAlt_ok_shape ctx st u0 ma0 p0 st' r hres
      rw [hcr]
      exact h

theorem run_preserves_revoked :
    ∀ (ops : List (TxCtx × Op)) (st : Ledger) (u : String) (c : Credential),
      getCred st u = some c → c.valid = false →
      ∃ c', getCred (run st ops) u = some c' ∧ c'.valid = false
  | [], st, u, c, hc, hv => ⟨c, hc, hv⟩
  | (ctx, op) :: rest, st, u, c, hc, hv => by
      obtain ⟨c', hc', hv'⟩ := applyOp_preserves_revoked ctx st op u c hc hv
      simpa [run] using run_preserves_revoked rest (applyOp ctx st op) u c' hc' hv'

theorem run_keys_nodup :
    ∀ (ops : List (TxCtx × Op)) (st : Ledger),
      (st.credentials.map Prod.fst).Nodup →
      ((run st ops).credentials.map Prod.fst).Nodup
  | [], st, h => h
  | (ctx, op) :: rest, st, h => by
      simpa [run] using
        run_keys_nodup rest (applyOp ctx st op) (applyOp_keys_nodup ctx st op h)

/-! ## Claim C9 -/

/-- Claim C9: revocation is one-way.  From any state reached from the
empty ledger, once the stored credential of a holder has valid = false,
no further sequence of engine operations (Issue, Get, Revoke,
VerifyProof, either VerifyAge, QueryVerifications) ever yields a state
where it is valid again — the credential stays present and invalid —
and the credential store keeps at most one entry per holderId. -/
theorem revocation_one_way (ops1 ops2 : List (TxCtx × Op)) (u : String) (c : Credential)
    (hc : getCred (run ledger0 ops1) u = some c) (hv : c.valid = false) :
    (∃ c', getCred (run ledger0 (ops1 ++ ops2)) u = some c' ∧ c'.valid = false) ∧
    ((run ledger0 (ops1 ++ ops2)).credentials.map Prod.fst).Nodup := by
  have happ : run ledger0 (ops1 ++ ops2) = run (run ledger0 ops1) ops2 := by
    simp [run, List.foldl_append]
  constructor
  · rw [happ]
    exact run_preserves_revoked ops2 _ u c hc hv
  · rw [happ]
    exact run_keys_nodup ops2 _ (run_keys_nodup ops1 ledger0 (by simp [ledger0]))

/-- Witness for C9: issue then revoke u1, then run every kind of
operation again; the credential stays revoked and keys stay unique. -/
theorem revocation_one_way_witness :
    (∃ c', getCred (run ledger0 (opsIssueRevoke ++ opsAfter)) "u1" = some c' ∧
       c'.valid = false) ∧
    ((run ledger0 (opsIssueRevoke ++ opsAfter)).credentials.map Prod.fst).Nodup :=
  revocation_one_way opsIssueRevoke opsAfter "u1" credAfterRevoke (by decide) (by decide)

/-! ## Claim C5 -/

/-- Claim C5: Issue is write-once.  When a credential already exists
for the holder, a second well-formed Issue call fails with the
already-exists error and leaves the ledger — in particular the stored
credential — exactly as it was; when none exists, Issue creates one
with valid = true and the given hash, and emits the issuance event. -/
theorem issue_write_once (ctx : TxCtx) (st : Ledger) (u hash issuer ts : String)
    (hu : u ≠ "") (hh : hash ≠ "") :
    (∀ c, getCred st u = some c →
       IdJS.IssueCredential ctx st u hash issuer ts = .error (.alreadyExists u) ∧
       applyOp ctx st (.issue u hash issuer ts) = st ∧
       getCred (applyOp ctx st (.issue u hash issuer ts)) u = some c) ∧
    (getCred st u = none →
       ∃ st' data, IdJS.IssueCredential ctx st u hash issuer ts = .ok (st', data) ∧
         data.valid = true ∧ data.credentialHash = hash ∧
         getCred st' u = some data ∧ ("IssueCredential", u) ∈ st'.events) := by
  constructor
  · intro c hc
    have herr : IdJS.IssueCredential ctx st u hash issuer ts = .error (.alreadyExists u) := by
      unfold IdJS.IssueCredential
      rw [if_neg (by tauto), hc]
    exact ⟨herr, by simp [applyOp, herr], by simp [applyOp, herr, hc]⟩
  · intro hc
    unfold IdJS.IssueCredential
    rw [if_neg (by tauto), hc]
    refine ⟨_, _, rfl, rfl, rfl, ?_, ?_⟩
    · exact getCred_putCred_same st u _
    · exact List.mem_cons_self _ _

/-- Witness for C5: re-issuing over the stored credential of u1 fails
and changes nothing; a first issuance over the empty ledger succeeds
with valid = true and the issuance event. -/
theorem issue_write_once_witness :
    (IdJS.IssueCredential ctx0 stR "u1" "99" "other" "t9" = .error (.alreadyExists "u1") ∧
     applyOp ctx0 stR (.issue "u1" "99" "other" "t9") = stR ∧
     getCred (applyOp ctx0 stR (.issue "u1" "99" "other" "t9")) "u1" = some credR) ∧
    (∃ st' data, IdJS.IssueCredential ctx0 ledger0 "u1" "42" "iss" "ts0" = .ok (st', data) ∧
       data.valid = true ∧ data.credentialHash = "42" ∧
       getCred st' "u1" = some data ∧ ("IssueCredential", "u1") ∈ st'.events) :=
  ⟨(issue_write_once ctx0 stR "u1" "99" "other" "t9" (by decide) (by decide)).1
     credR (by decide),
   (issue_write_once ctx0 ledger0 "u1" "42" "iss" "ts0" (by decide) (by decide)).2
     (by decide)⟩

/-! ## Claim C2 -/

/-- Claim C2 (modelled from the spec, see VerifyAgeBound): the bound
root hash supplied by the caller and the stored credentialHash are
compared after normalizing both to arbitrary-precision integers; the
attempt fails with the root-mismatch error exactly when the normalized
values differ — so the root of a tampered credential is rejected
against a stored root it does not equal — and the normalization maps a
hexadecimal and a decimal rendering of the same integer to the same
value (0xff and 255 both normalize to 255). -/
theorem verifyAgeBound_root_binding (ctx : TxCtx) (st : Ledger)
    (u ma rootHash : String) (signals : List String) (cred : Credential)
    (supplied stored : Int)
    (hu : u ≠ "") (hr : rootHash ≠ "")
    (hcred : getCred st u = some cred) (hvalid : cred.valid = true)
    (hne : signals ≠ []) (hsig1 : signals.headD "" = "1")
    (hsup : jsBigIntOfString rootHash = some supplied)
    (hsto : jsBigIntOfString cred.credentialHash = some stored) :
    (supplied ≠ stored →
       VerifyAgeBound ctx st u ma (.parsed signals (some true)) rootHash
         = .error .rootMismatch) ∧
    (supplied = stored →
       ∃ out, VerifyAgeBound ctx st u ma (.parsed signals (some true)) rootHash
         = .ok out) ∧
    (jsBigIntOfString "0xff" = some 255 ∧ jsBigIntOfString "255" = some 255) := by
  have hempty : signals.isEmpty = false := by
    cases signals with
    | nil => exact absurd rfl hne
    | cons a l => rfl
  have hsig1' : signals.head?.getD "" = "1" := by simpa using hsig1
  refine ⟨?_, ?_, by decide, by decide⟩
  · intro hdiff
    simp only [VerifyAgeBound, verifyGroth16Payload]
    rw [if_neg hu, if_neg hr]
    simp [hempty, hsig1', hcred, hvalid, hsup, hsto, hdiff]
  · intro heq
    refine ⟨({ st with
        ageVerifications :=
          { userID := u, txID := ctx.txID, timestamp := ctx.txTimestampISO
            minimumAge := parseIntJS ma, credentialHash := some cred.credentialHash
            isOfAge := some true, publicSignals := signals } :: st.ageVerifications
        events := ("VerifyAge", u) :: st.events }, true), ?_⟩
    simp only [VerifyAgeBound, verifyGroth16Payload]
    rw [if_neg hu, if_neg hr]
    simp [hempty, hsig1', hcred, hvalid, hsup, hsto, heq]

/-- Witness for C2: against the stored decimal root 255, the supplied
root 7 is rejected with the root-mismatch error while the hexadecimal
rendering 0xff of the same integer is accepted. -/
theorem verifyAgeBound_root_binding_witness :
    VerifyAgeBound ctx0 stR "u1" "18" payloadAdult1 "7" = .error .rootMismatch ∧
    (∃ out, VerifyAgeBound ctx0 stR "u1" "18" payloadAdult1 "0xff" = .ok out) :=
  ⟨(verifyAgeBound_root_binding ctx0 stR "u1" "18" "7" ["1"] credR 7 255
      (by decide) (by decide) (by decide) (by decide) (by decide) (by decide)
      (by decide) (by decide)).1 (by decide),
   (verifyAgeBound_root_binding ctx0 stR "u1" "18" "0xff" ["1"] credR 255 255
      (by decide) (by decide) (by decide) (by decide) (by decide) (by decide)
      (by decide) (by decide)).2.1 rfl⟩

/-! ## Claim C3 -/

/-- Claim C3 (modelled from the spec, see VerifyAgeBound): when the
stored credential of the holder has valid = false, the attempt fails
with the revoked-credential error even though the external verifier
accepted the proof, the adulthood signal passes, and the supplied root
normalizes to the stored credentialHash. -/
theorem verifyAgeBound_revoked (ctx : TxCtx) (st : Ledger)
    (u ma rootHash : String) (signals : List String) (cred : Credential)
    (hu : u ≠ "") (hr : rootHash ≠ "")
    (hcred : getCred st u = some cred) (hrev : cred.valid = false)
    (hne : signals ≠ []) (hsig1 : signals.headD "" = "1")
    (hmatch : jsBigIntOfString rootHash = jsBigIntOfString cred.credentialHash) :
    VerifyAgeBound ctx st u ma (.parsed signals (some true)) rootHash
      = .error (.revokedCredential u) := by
  have hempty : signals.isEmpty = false := by
    cases signals with
    | nil => exact absurd rfl hne
    | cons a l => rfl
  have hsig1' : signals.head?.getD "" = "1" := by simpa using hsig1
  simp only [VerifyAgeBound, verifyGroth16Payload]
  rw [if_neg hu, if_neg hr]
  simp [hempty, hsig1', hcred, hrev]

/-- Witness for C3: the revoked credential of u1 is rejected with the
revoked-credential error on a matching root and accepted proof. -/
theorem verifyAgeBound_revoked_witness :
    VerifyAgeBound ctx0 stRev "u1" "18" payloadAdult1 "255"
      = .error (.revokedCredential "u1") :=
  verifyAgeBound_revoked ctx0 stRev "u1" "18" "255" ["1"] credRev
    (by decide) (by decide) (by decide) (by decide) (by decide) (by decide) (by decide)

/-! ## Claim C7 -/

/-- Claim C7: a VerifyAge call whose adulthood signal is the string 0
fails with the signal-mismatch error naming the failed sub-check even
when the external verifier accepts the proof — in the three-signal
convention of identity.js (isOfAgeFlag at index 2) once the earlier
sub-checks pass, and in the single-signal convention of the parallel
bundle (isAdult at index 0). -/
theorem verifyAge_zero_flag :
    (∀ (ctx : TxCtx) (st : Ledger) (u ma : String) (n : Int) (signals : List String),
       u ≠ "" → ma ≠ "" → parseIntJS ma = some n → 0 < n →
       3 ≤ signals.length → toNumber (signals.getD 0 "") = some n →
       signals.getD 2 "" = "0" →
       IdJS.VerifyAge ctx st u ma (.parsed signals (some true))
         = .error (.signalMismatch "holder does not meet the minimum age requirement")) ∧
    (∀ (ctx : TxCtx) (st : Ledger) (u ma : String) (signals : List String),
       u ≠ "" → signals ≠ [] → signals.headD "" = "0" →
       P007.VerifyAge ctx st u ma (.parsed signals (some true))
         = .error (.signalMismatch "holder is not an adult")) := by
  constructor
  · intro ctx st u ma n signals hu hma hparse hpos hlen3 hsig0 hsig2
    have hnotle : ¬ n ≤ 0 := by omega
    have hnotlt : ¬ signals.length < 3 := by omega
    have hsig0' : toNumber (signals[0]?.getD "") = some n := by simpa using hsig0
    have hsig2' : signals[2]?.getD "" = "0" := by simpa using hsig2
    have hflag : toBooleanSignal (signals[2]?.getD "") = false := by
      rw [hsig2']; decide
    simp only [IdJS.VerifyAge, verifyGroth16Payload]
    rw [if_neg hu, if_neg hma]
    simp [hparse, hnotle, hnotlt, hsig0', hflag]
  · intro ctx st u ma signals hu hne hsig0
    have hempty : signals.isEmpty = false := by
      cases signals with
      | nil => exact absurd rfl hne
      | cons a l => rfl
    have hsig0' : signals.head?.getD "" = "0" := by simpa using hsig0
    simp only [P007.VerifyAge, verifyGroth16Payload]
    rw [if_neg hu]
    simp [hempty, hsig0']

/-- Witness for C7: concrete rejected calls in both conventions. -/
theorem verifyAge_zero_flag_witness :
    IdJS.VerifyAge ctx0 ledger0 "u1" "18" payloadFlag0
      = .error (.signalMismatch "holder does not meet the minimum age requirement") ∧
    P007.VerifyAge ctx0 ledger0 "u1" "18" payloadAdult0
      = .error (.signalMismatch "holder is not an adult") :=
  ⟨verifyAge_zero_flag.1 ctx0 ledger0 "u1" "18" 18 ["18", "99", "0"]
     (by decide) (by decide) (by decide) (by decide) (by decide) (by decide) (by decide),
   verifyAge_zero_flag.2 ctx0 ledger0 "u1" "18" ["0"]
     (by decide) (by decide) (by decide)⟩

/-! ## Claim C6 -/

/-- Claim C6 counterexample: a concrete VerifyAge attempt rejected at
the signal-check step (adulthood flag 0, externally accepted proof)
surfaces the error and writes no VerificationRecord at all — the
ledger after the attempt is unchanged and holds no record with
accepted = false, contradicting the claim that every rejection writes
a record with the failure reason. -/
theorem rejected_attempt_writes_no_record :
    IdJS.VerifyAge ctx0 ledger0 "u1" "18" payloadFlag0
      = .error (.signalMismatch "holder does not meet the minimum age requirement") ∧
    applyOp ctx0 ledger0 (.verifyAge "u1" "18" payloadFlag0) = ledger0 ∧
    (applyOp ctx0 ledger0 (.verifyAge "u1" "18" payloadFlag0)).ageVerifications = [] ∧
    (applyOp ctx0 ledger0 (.verifyAge "u1" "18" payloadFlag0)).verifications = [] := by
  decide

/-- Claim C6 amended: a rejected VerifyAge attempt surfaces the error
and leaves the ledger unchanged — no VerificationRecord of any kind is
written for it; a VerificationRecord is written only on accepted
VerifyAge attempts (with isOfAge = true), while VerifyProof writes a
record on every completed attempt, carrying the external verifier
verdict whether accepted or not. -/
theorem verification_records_on_outcomes :
    (∀ (ctx : TxCtx) (st : Ledger) (u ma : String) (p : Groth16Payload) (e : CCError),
       IdJS.VerifyAge ctx st u ma p = .error e →
       applyOp ctx st (.verifyAge u ma p) = st) ∧
    (∀ (ctx : TxCtx) (st : Ledger) (u ma : String) (p : Groth16Payload)
       (st' : Ledger) (r : Int),
       IdJS.VerifyAge ctx st u ma p = .ok (st', r) →
       ∃ rec : VerificationRecord, st'.ageVerifications = rec :: st.ageVerifications ∧
         rec.isOfAge = some true ∧ st'.credentials = st.credentials ∧
         st'.verifications = st.verifications) ∧
    (∀ (ctx : TxCtx) (st : Ledger) (u : String) (signals : List String) (v : Bool)
       (st' : Ledger) (r : Bool),
       IdJS.VerifyProof ctx st u (.parsed signals (some v)) = .ok (st', r) →
       ∃ rec : VerificationRecord, st'.verifications = rec :: st.verifications ∧
         rec.valid = some v) := by
  refine ⟨?_, ?_, ?_⟩
  · intro ctx st u ma p e h
    simp [applyOp, h]
  · intro ctx st u ma p st' r h
    exact verifyAge_ok_shape ctx st u ma p st' r h
  · intro ctx st u signals v st' r h
    simp only [IdJS.VerifyProof, verifyGroth16Payload, Except.ok.injEq,
      Prod.mk.injEq] at h
    obtain ⟨rfl, rfl⟩ := h
    exact ⟨_, rfl, rfl⟩

/-- Witness for the amended C6: the rejected concrete attempt leaves
the ledger unchanged; the accepted concrete attempt appends exactly
one acceptance record; a completed VerifyProof with a rejecting
verifier appends a record carrying valid = false. -/
theorem verification_records_on_outcomes_witness :
    applyOp ctx0 ledger0 (.verifyAge "u2" "18" payloadFlag0) = ledger0 ∧
    (∃ rec : VerificationRecord, stSucc.ageVerifications = rec :: ledger0.ageVerifications ∧
       rec.isOfAge = some true ∧ stSucc.credentials = ledger0.credentials ∧
       stSucc.verifications = ledger0.verifications) ∧
    (∃ rec : VerificationRecord, stVP.verifications = rec :: ledger0.verifications ∧
       rec.valid = some false) :=
  ⟨verification_records_on_outcomes.1 ctx0 ledger0 "u2" "18" payloadFlag0
     (.signalMismatch "holder does not meet the minimum age requirement") (by decide),
   verification_records_on_outcomes.2.1 ctx0 ledger0 "u1" "18" payloadFlag1 stSucc 18
     (by decide),
   verification_records_on_outcomes.2.2 ctx0 ledger0 "u1" ["7"] false stVP false
     (by decide)⟩

/-! ## Claim C8 -/

/-- Claim C8 (code slip in identity.js): with two transaction contexts
equal in transaction id and transaction timestamp but differing in the
node wall clock, every identity.js operation that stores a defaulted
or record timestamp produces different results on the two replicas
(IssueCredential with an empty timestamp argument, RevokeCredential,
VerifyProof, VerifyAge), while the parallel bundle, which derives the
same timestamps from the transaction context, produces identical
results — so identity.js timestamps come from the wall clock, not
solely from the transaction context. -/
theorem identityjs_timestamps_use_wall_clock :
    ctxA.txID = ctxB.txID ∧ ctxA.txTimestampISO = ctxB.txTimestampISO ∧
    ctxA.wallClockISO ≠ ctxB.wallClockISO ∧
    IdJS.IssueCredential ctxA ledger0 "u1" "42" "iss" ""
      ≠ IdJS.IssueCredential ctxB ledger0 "u1" "42" "iss" "" ∧
    IdJS.RevokeCredential ctxA stR "u1" "because"
      ≠ IdJS.RevokeCredential ctxB stR "u1" "because" ∧
    IdJS.VerifyProof ctxA ledger0 "u1" payloadAdult1
      ≠ IdJS.VerifyProof ctxB ledger0 "u1" payloadAdult1 ∧
    IdJS.VerifyAge ctxA ledger0 "u1" "18" payloadFlag1
      ≠ IdJS.VerifyAge ctxB ledger0 "u1" "18" payloadFlag1 ∧
    P007.IssueCredential ctxA ledger0 "u1" "42" "iss" ""
      = P007.IssueCredential ctxB ledger0 "u1" "42" "iss" "" ∧
    P007.VerifyAge ctxA ledger0 "u1" "18" payloadAdult1
      = P007.VerifyAge ctxB ledger0 "u1" "18" payloadAdult1 := by
  decide
